import Mathlib

/-!
Verification of the PLDM transport correlation engine
(`iot1::protocol::PldmTransport`, `src/iot1/protocol/pldm_transport.cpp`).

The transport multiplexes concurrent request/response exchanges over one
MCTP link.  Each in-flight request is keyed in the `pending` map by a 5-bit
instance id (correlation tag) decoded from bits 2-6 of the first header
byte.  A background receive loop demultiplexes inbound frames to the
matching `std::promise`; a background sweeper expires stale entries;
`close` drains the table.

The embedding below models:
  * `std::promise<std::vector<uint8_t>>` as an index into a promise store
    (`List (Option Outcome)`); `none` is an unfulfilled shared state.
    `set_value` / `set_exception` wrapped in `try { .. } catch (future_error)`
    become `trySet`, which leaves an already-fulfilled promise unchanged
    (the C++ code catches and ignores `std::future_error`).
    Abandoning an unfulfilled promise (the move-assignment in
    `pending[instance_id] = std::move(pending_req)`) makes the state ready
    with a `broken_promise` error; this is `trySet _ _ (.err .brokenPromise)`.
  * `std::map<uint8_t, PendingRequest>` as an association list
    `List (Nat × PendingEntry)` with `lookupTag` / `insertTag` / `eraseTag`.
  * bytes and time points as `Nat`.
Each loop-body iteration of the receive loop and the timeout sweeper
becomes one state-transforming function; the concurrent environment is a
sequence of such atomic steps (`Op` / `run`), which is faithful because
the C++ code performs every table access under the single `pending_lock`.
-/

namespace PldmSpec

/-- Failure categories delivered through a pending exchange's promise,
matching the exceptions raised in `pldm_transport.cpp`:
`std::invalid_argument("Empty request message")`,
`std::runtime_error("PLDM request timeout")`,
`std::runtime_error("Send failed")`,
`std::runtime_error("Transport closing")`, and the
`std::future_error(broken_promise)` produced when a pending promise is
abandoned by the collision overwrite. -/
inductive Failure where
  | emptyRequest
  | timeout
  | sendFailed
  | transportClosing
  | brokenPromise
  deriving DecidableEq, Repr

/-- What a fulfilled promise carries: a successful response payload
(`set_value(msg)`) or a typed failure (`set_exception(...)`). -/
inductive Outcome where
  | ok (payload : List Nat)
  | err (e : Failure)
  deriving DecidableEq, Repr

/-- `PendingRequest` from `pldm_transport.h`: the promise (modelled by its
index into the promise store), the absolute deadline
(`steady_clock::now() + timeout_ms`), and the target EID. -/
structure PendingEntry where
  pid : Nat
  deadline : Nat
  targetEid : Nat
  deriving DecidableEq, Repr

/-- The promise store: index `pid` holds `none` while promise `pid` is
unfulfilled, `some o` once it has been satisfied with outcome `o`. -/
abbrev PromiseStore := List (Option Outcome)

/-- The transport state visible to the claims: the promise store, the
`pending` map (`instance_id -> PendingRequest`) and the `running` flag. -/
structure TransportState where
  promises : PromiseStore
  pending : List (Nat × PendingEntry)
  running : Bool
  deriving DecidableEq, Repr

/-- `pending.find(tag)` on the association list. -/
def lookupTag : List (Nat × PendingEntry) → Nat → Option PendingEntry
  | [], _ => none
  | (k, v) :: t, tag => if k = tag then some v else lookupTag t tag

/-- `pending[tag] = entry`: replace the entry if the key is present,
otherwise add it (std::map::operator[] followed by assignment). -/
def insertTag : List (Nat × PendingEntry) → Nat → PendingEntry → List (Nat × PendingEntry)
  | [], tag, e => [(tag, e)]
  | (k, v) :: t, tag, e =>
    if k = tag then (tag, e) :: t else (k, v) :: insertTag t tag e

/-- `pending.erase(it)` for the entry found under `tag`. -/
def eraseTag : List (Nat × PendingEntry) → Nat → List (Nat × PendingEntry)
  | [], _ => []
  | (k, v) :: t, tag => if k = tag then t else (k, v) :: eraseTag t tag

/-- Fulfill promise `pid` with outcome `o` if it is still unfulfilled;
an already-fulfilled promise is left unchanged (the C++ code catches the
resulting `std::future_error` and continues). -/
def trySet (ps : PromiseStore) (pid : Nat) (o : Outcome) : PromiseStore :=
  match ps[pid]? with
  | some none => ps.set pid (some o)
  | _ => ps

/-- The outcome observable through promise `pid`'s future: `some o` once
fulfilled, `none` while `future.get()` would still block. -/
def getOutcome (s : TransportState) (pid : Nat) : Option Outcome :=
  match s.promises[pid]? with
  | some (some o) => some o
  | _ => none

/-- Correlation-tag decoding from `receiveLoop` / `sendAsync`:
`(msg[0] >> 2) & 0x1F`, bits 2-6 of the first header byte. -/
def tagOf (msg : List Nat) : Nat :=
  (msg.headD 0 >>> 2) &&& 0x1F

/-- One receive-loop iteration that obtained frame `msg` from the link
(`PldmTransport::receiveLoop` body): discard frames shorter than 2 bytes;
otherwise decode the tag, and when a pending exchange matches, set its
promise to the full frame bytes and erase the entry; unmatched frames are
logged and discarded. -/
def processFrame (s : TransportState) (msg : List Nat) : TransportState :=
  if msg.length < 2 then s
  else
    match lookupTag s.pending (tagOf msg) with
    | some e =>
      { s with
        promises := trySet s.promises e.pid (.ok msg)
        pending := eraseTag s.pending (tagOf msg) }
    | none => s

/-- The sweeper's iterator walk over the pending map
(`while (it != pending.end())` in `timeoutCleanupLoop`): an entry with
`now > it->second.timeout` has its promise failed with the timeout error
(already-satisfied promises are left alone by the catch) and is erased;
any other entry is kept.  Returns the surviving entries and the updated
promise store. -/
def sweepEntries : List (Nat × PendingEntry) → Nat → PromiseStore →
    List (Nat × PendingEntry) × PromiseStore
  | [], _, ps => ([], ps)
  | e :: t, now, ps =>
    if e.2.deadline < now then
      sweepEntries t now (trySet ps e.2.pid (.err .timeout))
    else
      let r := sweepEntries t now ps
      (e :: r.1, r.2)

/-- One full pass of the timeout sweeper at time `now`
(`PldmTransport::timeoutCleanupLoop` body after the 100 ms sleep). -/
def sweepOnce (s : TransportState) (now : Nat) : TransportState :=
  { s with
    promises := (sweepEntries s.pending now s.promises).2
    pending := (sweepEntries s.pending now s.promises).1 }

/-- The drain loop in `PldmTransport::close`: fail every remaining pending
promise with the transport-closing error (already-satisfied promises are
skipped by the catch). -/
def drainAll : List (Nat × PendingEntry) → PromiseStore → PromiseStore
  | [], ps => ps
  | e :: t, ps => drainAll t (trySet ps e.2.pid (.err .transportClosing))

/-- `PldmTransport::close`: stop the workers (`running = false`), then fail
every remaining pending promise with the transport-closing error and clear
the map (`pending.clear()`). -/
def closeTransport (s : TransportState) : TransportState :=
  { promises := drainAll s.pending s.promises
    pending := []
    running := false }

/-- Behaviour of `mctp->send(request)` for one call: it may succeed, throw
(`.fail`), or succeed while synchronously delivering response frame `resp`
through the receive path before returning (`.echo`, a loopback/test link). -/
inductive LinkBehavior where
  | ok
  | fail
  | echo (resp : List Nat)
  deriving DecidableEq, Repr

/-- `PldmTransport::sendAsync(target_eid, request, timeout_ms)` at time
`now`, with the link behaving as `lb`.  Returns the new state and the `pid`
of the future handed back to the caller.
Empty requests get a fresh pre-failed promise and nothing else happens.
Otherwise the tag is decoded from the request header, the pending entry is
registered (before the send; a colliding previous entry is overwritten,
which abandons its promise with `broken_promise`), and then `mctp->send`
runs; on a send exception the just-inserted entry is failed with the
send-failed error and erased. -/
def sendAsync (lb : LinkBehavior) (targetEid : Nat) (request : List Nat)
    (timeoutMs now : Nat) (s : TransportState) : TransportState × Nat :=
  if request.isEmpty then
    ({ s with promises := s.promises ++ [some (.err .emptyRequest)] },
     s.promises.length)
  else
    let tag := tagOf request
    let pid := s.promises.length
    let ps1 := s.promises ++ [none]
    let ps2 :=
      match lookupTag s.pending tag with
      | some old => trySet ps1 old.pid (.err .brokenPromise)
      | none => ps1
    let s1 : TransportState :=
      { s with
        promises := ps2
        pending := insertTag s.pending tag ⟨pid, now + timeoutMs, targetEid⟩ }
    match lb with
    | .ok => (s1, pid)
    | .echo resp => (processFrame s1 resp, pid)
    | .fail =>
      match lookupTag s1.pending tag with
      | some e =>
        ({ s1 with
           promises := trySet s1.promises e.pid (.err .sendFailed)
           pending := eraseTag s1.pending tag }, pid)
      | none => (s1, pid)

/-- One atomic step of the concurrent environment: a receive-loop
iteration, a sweeper pass, a `sendAsync` call, or `close`.  The two
background loops only run their bodies while `running` is true. -/
inductive Op where
  | frame (msg : List Nat)
  | sweep (now : Nat)
  | send (lb : LinkBehavior) (targetEid : Nat) (request : List Nat)
      (timeoutMs now : Nat)
  | close
  deriving DecidableEq, Repr

/-- Apply one environment step to the transport state. -/
def applyOp (op : Op) (s : TransportState) : TransportState :=
  match op with
  | .frame msg => if s.running then processFrame s msg else s
  | .sweep now => if s.running then sweepOnce s now else s
  | .send lb t r tm now => (sendAsync lb t r tm now s).1
  | .close => closeTransport s

/-- Run a sequence of environment steps. -/
def run (ops : List Op) (s : TransportState) : TransportState :=
  ops.foldl (fun s op => applyOp op s) s

/-- `PldmTransport::sendAndWaitResponse`: call `sendAsync`, let the
environment steps `env` run, then `future.get()`.  The C++ body is
`response = future.get(); return true;` inside a try block whose catch
returns `false`, so the caller's `response` buffer is assigned only when
`get` returns a payload; if `get` throws (or would still block), `response`
keeps its previous contents `resp0`.  Returns the final state, the boolean
result, and the caller's response buffer. -/
def sendAndWaitResponse (lb : LinkBehavior) (targetEid : Nat)
    (request : List Nat) (timeoutMs now : Nat) (env : List Op)
    (s : TransportState) (resp0 : List Nat) :
    TransportState × Bool × List Nat :=
  let r := sendAsync lb targetEid request timeoutMs now s
  let s2 := run env r.1
  match getOutcome s2 r.2 with
  | some (.ok payload) => (s2, true, payload)
  | _ => (s2, false, resp0)

/-! ### Promise-store lemmas -/

theorem trySet_getElem?_ne (ps : PromiseStore) {pid pid' : Nat} (o : Outcome)
    (h : pid ≠ pid') : (trySet ps pid o)[pid']? = ps[pid']? := by
  unfold trySet
  split
  · exact List.getElem?_set_ne h
  · rfl

theorem trySet_getElem?_of_none (ps : PromiseStore) {pid : Nat} (o : Outcome)
    (h : ps[pid]? = some none) : (trySet ps pid o)[pid]? = some (some o) := by
  unfold trySet
  rw [h]
  exact List.getElem?_set_self (List.getElem?_eq_some.mp h).1

theorem trySet_of_fulfilled (ps : PromiseStore) {pid : Nat} {o : Outcome}
    (o' : Outcome) (h : ps[pid]? = some (some o)) : trySet ps pid o' = ps := by
  unfold trySet
  rw [h]

theorem trySet_preserves_fulfilled (ps : PromiseStore) {pid : Nat} (pid' : Nat)
    {o : Outcome} (o' : Outcome) (h : ps[pid]? = some (some o)) :
    (trySet ps pid' o')[pid]? = some (some o) := by
  by_cases hp : pid' = pid
  · subst hp
    rw [trySet_of_fulfilled ps o' h]
    exact h
  · rw [trySet_getElem?_ne ps o' hp]
    exact h

theorem getOutcome_eq_some (s : TransportState) (pid : Nat) (o : Outcome) :
    getOutcome s pid = some o ↔ s.promises[pid]? = some (some o) := by
  unfold getOutcome
  cases h : s.promises[pid]? with
  | none => simp
  | some x => cases x with
    | none => simp
    | some o' => simp

/-! ### Association-list lemmas for the pending map -/

theorem lookupTag_insertTag_self (l : List (Nat × PendingEntry)) (k : Nat)
    (v : PendingEntry) : lookupTag (insertTag l k v) k = some v := by
  induction l with
  | nil => simp [insertTag, lookupTag]
  | cons p t ih =>
    by_cases h : p.1 = k
    · simp [insertTag, lookupTag, h]
    · simpa [insertTag, lookupTag, h] using ih

theorem lookupTag_insertTag_ne (l : List (Nat × PendingEntry)) {k k' : Nat}
    (v : PendingEntry) (h : k' ≠ k) :
    lookupTag (insertTag l k v) k' = lookupTag l k' := by
  induction l with
  | nil => simp [insertTag, lookupTag, Ne.symm h]
  | cons p t ih =>
    by_cases hp : p.1 = k
    · subst hp
      simp [insertTag, lookupTag, Ne.symm h]
    · by_cases hp' : p.1 = k'
      · simp [insertTag, lookupTag, hp, hp', h]
      · simp [insertTag, lookupTag, hp, hp', ih]

theorem eraseTag_insertTag (l : List (Nat × PendingEntry)) {k : Nat}
    (v : PendingEntry) (h : lookupTag l k = none) :
    eraseTag (insertTag l k v) k = l := by
  induction l with
  | nil => simp [insertTag, eraseTag]
  | cons p t ih =>
    by_cases hp : p.1 = k
    · simp [lookupTag, hp] at h
    · simp only [lookupTag, hp, if_false] at h
      simp [insertTag, eraseTag, hp, ih h]

theorem lookupTag_eraseTag_ne (l : List (Nat × PendingEntry)) {k k' : Nat}
    (h : k' ≠ k) : lookupTag (eraseTag l k) k' = lookupTag l k' := by
  induction l with
  | nil => simp [eraseTag, lookupTag]
  | cons p t ih =>
    by_cases hp : p.1 = k
    · subst hp
      simp [eraseTag, lookupTag, Ne.symm h]
    · by_cases hp' : p.1 = k'
      · simp [eraseTag, lookupTag, hp, hp', h]
      · simp [eraseTag, lookupTag, hp, hp', ih]

theorem length_eraseTag (l : List (Nat × PendingEntry)) {k : Nat}
    {v : PendingEntry} (h : lookupTag l k = some v) :
    (eraseTag l k).length + 1 = l.length := by
  induction l with
  | nil => simp [lookupTag] at h
  | cons p t ih =>
    by_cases hp : p.1 = k
    · simp [eraseTag, hp]
    · simp only [lookupTag, hp, if_false] at h
      simp [eraseTag, hp, ih h]

theorem lookupTag_eq_none_of_not_mem (l : List (Nat × PendingEntry)) {k : Nat}
    (h : k ∉ l.map Prod.fst) : lookupTag l k = none := by
  induction l with
  | nil => rfl
  | cons p t ih =>
    simp only [List.map_cons, List.mem_cons, not_or] at h
    simp [lookupTag, Ne.symm h.1, ih h.2]

theorem lookupTag_eraseTag_self (l : List (Nat × PendingEntry)) {k : Nat}
    (h : (l.map Prod.fst).Nodup) : lookupTag (eraseTag l k) k = none := by
  induction l with
  | nil => rfl
  | cons p t ih =>
    simp only [List.map_cons, List.nodup_cons] at h
    by_cases hp : p.1 = k
    · subst hp
      simpa [eraseTag] using lookupTag_eq_none_of_not_mem t h.1
    · simp [eraseTag, lookupTag, hp, ih h.2]

/-! ### Fulfilled promises are never overwritten -/

theorem sweepEntries_preserves_fulfilled (now : Nat)
    (pend : List (Nat × PendingEntry)) :
    ∀ ps : PromiseStore, ∀ {pid : Nat} {o : Outcome},
      ps[pid]? = some (some o) →
      (sweepEntries pend now ps).2[pid]? = some (some o) := by
  induction pend with
  | nil => intro ps pid o h; exact h
  | cons q t ih =>
    intro ps pid o h
    unfold sweepEntries
    by_cases hq : q.2.deadline < now
    · simp only [hq, if_true]
      exact ih _ (trySet_preserves_fulfilled ps q.2.pid _ h)
    · simp only [hq, if_false]
      exact ih _ h

theorem drainAll_preserves_fulfilled (pend : List (Nat × PendingEntry)) :
    ∀ ps : PromiseStore, ∀ {pid : Nat} {o : Outcome},
      ps[pid]? = some (some o) →
      (drainAll pend ps)[pid]? = some (some o) := by
  induction pend with
  | nil => intro ps pid o h; exact h
  | cons q t ih =>
    intro ps pid o h
    exact ih _ (trySet_preserves_fulfilled ps q.2.pid _ h)

theorem append_preserves_fulfilled (ps : PromiseStore) {pid : Nat}
    {o : Outcome} (x : Option Outcome) (h : ps[pid]? = some (some o)) :
    (ps ++ [x])[pid]? = some (some o) := by
  rw [List.getElem?_append_left (List.getElem?_eq_some.mp h).1]
  exact h

theorem processFrame_preserves_fulfilled (s : TransportState) (msg : List Nat)
    {pid : Nat} {o : Outcome} (h : s.promises[pid]? = some (some o)) :
    (processFrame s msg).promises[pid]? = some (some o) := by
  unfold processFrame
  split
  · exact h
  · split
    · exact trySet_preserves_fulfilled s.promises _ _ h
    · exact h

theorem sendAsync_preserves_fulfilled (lb : LinkBehavior) (targetEid : Nat)
    (request : List Nat) (timeoutMs now : Nat) (s : TransportState)
    {pid : Nat} {o : Outcome} (h : s.promises[pid]? = some (some o)) :
    (sendAsync lb targetEid request timeoutMs now s).1.promises[pid]?
      = some (some o) := by
  unfold sendAsync
  split
  · exact append_preserves_fulfilled s.promises _ h
  · have h1 : (s.promises ++ [none])[pid]? = some (some o) :=
      append_preserves_fulfilled s.promises _ h
    have h2 :
        (match lookupTag s.pending (tagOf request) with
          | some old => trySet (s.promises ++ [none]) old.pid (.err .brokenPromise)
          | none => s.promises ++ [none])[pid]? = some (some o) := by
      split
      · exact trySet_preserves_fulfilled _ _ _ h1
      · exact h1
    cases lb with
    | ok => exact h2
    | echo resp => exact processFrame_preserves_fulfilled _ resp h2
    | fail =>
      simp only
      split
      · exact trySet_preserves_fulfilled _ _ _ h2
      · exact h2

theorem applyOp_preserves_fulfilled (op : Op) (s : TransportState)
    {pid : Nat} {o : Outcome} (h : s.promises[pid]? = some (some o)) :
    (applyOp op s).promises[pid]? = some (some o) := by
  cases op with
  | frame msg =>
    simp only [applyOp]
    split
    · exact processFrame_preserves_fulfilled s msg h
    · exact h
  | sweep now =>
    simp only [applyOp]
    split
    · exact sweepEntries_preserves_fulfilled now s.pending s.promises h
    · exact h
  | send lb t r tm now => exact sendAsync_preserves_fulfilled lb t r tm now s h
  | close => exact drainAll_preserves_fulfilled s.pending s.promises h

theorem run_preserves_fulfilled (ops : List Op) :
    ∀ s : TransportState, ∀ {pid : Nat} {o : Outcome},
      s.promises[pid]? = some (some o) →
      (run ops s).promises[pid]? = some (some o) := by
  induction ops with
  | nil => intro s pid o h; exact h
  | cons op t ih =>
    intro s pid o h
    exact ih _ (applyOp_preserves_fulfilled op s h)

/-! ### What one sweeper pass and the shutdown drain do -/

theorem mem_sweepEntries (now : Nat) (pend : List (Nat × PendingEntry)) :
    ∀ (ps : PromiseStore) (p : Nat × PendingEntry),
      p ∈ (sweepEntries pend now ps).1 ↔ p ∈ pend ∧ ¬ p.2.deadline < now := by
  induction pend with
  | nil => intro ps p; simp [sweepEntries]
  | cons q t ih =>
    intro ps p
    unfold sweepEntries
    by_cases hq : q.2.deadline < now
    · simp only [hq, if_true]
      rw [ih]
      constructor
      · exact fun hp => ⟨List.mem_cons_of_mem _ hp.1, hp.2⟩
      · rintro ⟨h1, hnp⟩
        rcases List.mem_cons.mp h1 with rfl | hp
        · exact absurd hq hnp
        · exact ⟨hp, hnp⟩
    · simp only [hq, if_false, List.mem_cons]
      rw [ih]
      constructor
      · rintro (rfl | ⟨hp, hnp⟩)
        · exact ⟨Or.inl rfl, hq⟩
        · exact ⟨Or.inr hp, hnp⟩
      · rintro ⟨rfl | hp, hnp⟩
        · exact Or.inl rfl
        · exact Or.inr ⟨hp, hnp⟩

theorem sweepEntries_sets (now : Nat) (pend : List (Nat × PendingEntry)) :
    ∀ (ps : PromiseStore) (pid : Nat),
      (∃ p ∈ pend, p.2.deadline < now ∧ p.2.pid = pid) →
      (ps[pid]? = some none ∨ ps[pid]? = some (some (.err .timeout))) →
      (sweepEntries pend now ps).2[pid]? = some (some (.err .timeout)) := by
  induction pend with
  | nil =>
    rintro ps pid ⟨p, hp, -⟩ -
    simp at hp
  | cons q t ih =>
    rintro ps pid ⟨p, hp, hdl, hpid⟩ hps
    unfold sweepEntries
    by_cases hq : q.2.deadline < now
    · simp only [hq, if_true]
      by_cases hqp : q.2.pid = pid
      · have hset : (trySet ps q.2.pid (.err .timeout))[pid]?
            = some (some (.err .timeout)) := by
          rcases hps with hn | hf
          · rw [hqp]
            exact trySet_getElem?_of_none ps _ hn
          · rw [hqp, trySet_of_fulfilled ps _ hf]
            exact hf
        exact sweepEntries_preserves_fulfilled now t _ hset
      · have hps' : (trySet ps q.2.pid (.err .timeout))[pid]? = some none ∨
            (trySet ps q.2.pid (.err .timeout))[pid]?
              = some (some (.err .timeout)) := by
          rw [trySet_getElem?_ne ps _ hqp]
          exact hps
        have hpt : p ∈ t := by
          rcases List.mem_cons.mp hp with rfl | h
          · exact absurd hpid hqp
          · exact h
        exact ih _ _ ⟨p, hpt, hdl, hpid⟩ hps'
    · simp only [hq, if_false]
      have hpt : p ∈ t := by
        rcases List.mem_cons.mp hp with rfl | h
        · exact absurd hdl hq
        · exact h
      exact ih _ _ ⟨p, hpt, hdl, hpid⟩ hps

theorem sweepEntries_untouched (now : Nat) (pend : List (Nat × PendingEntry)) :
    ∀ (ps : PromiseStore) (pid : Nat),
      (∀ p ∈ pend, p.2.deadline < now → p.2.pid ≠ pid) →
      (sweepEntries pend now ps).2[pid]? = ps[pid]? := by
  induction pend with
  | nil => intro ps pid _; rfl
  | cons q t ih =>
    intro ps pid hsep
    unfold sweepEntries
    by_cases hq : q.2.deadline < now
    · simp only [hq, if_true]
      rw [ih _ _ (fun p hp hd => hsep p (List.mem_cons_of_mem _ hp) hd)]
      exact trySet_getElem?_ne ps _ (hsep q (List.mem_cons_self q t) hq)
    · simp only [hq, if_false]
      exact ih _ _ (fun p hp hd => hsep p (List.mem_cons_of_mem _ hp) hd)

theorem drainAll_sets (pend : List (Nat × PendingEntry)) :
    ∀ (ps : PromiseStore) (pid : Nat),
      (∃ p ∈ pend, p.2.pid = pid) →
      (ps[pid]? = some none ∨
        ps[pid]? = some (some (.err .transportClosing))) →
      (drainAll pend ps)[pid]? = some (some (.err .transportClosing)) := by
  induction pend with
  | nil =>
    rintro ps pid ⟨p, hp, -⟩ -
    simp at hp
  | cons q t ih =>
    rintro ps pid ⟨p, hp, hpid⟩ hps
    show (drainAll t (trySet ps q.2.pid (.err .transportClosing)))[pid]?
      = some (some (.err .transportClosing))
    by_cases hqp : q.2.pid = pid
    · have hset : (trySet ps q.2.pid (.err .transportClosing))[pid]?
          = some (some (.err .transportClosing)) := by
        rcases hps with hn | hf
        · rw [hqp]
          exact trySet_getElem?_of_none ps _ hn
        · rw [hqp, trySet_of_fulfilled ps _ hf]
          exact hf
      exact drainAll_preserves_fulfilled t _ hset
    · have hps' : (trySet ps q.2.pid (.err .transportClosing))[pid]? = some none ∨
          (trySet ps q.2.pid (.err .transportClosing))[pid]?
            = some (some (.err .transportClosing)) := by
        rw [trySet_getElem?_ne ps _ hqp]
        exact hps
      have hpt : p ∈ t := by
        rcases List.mem_cons.mp hp with rfl | h
        · exact absurd hpid hqp
        · exact h
      exact ih _ _ ⟨p, hpt, hpid⟩ hps'

/-! ### Claim theorems -/

/-- Claim C1 (registration-before-send): `sendAsync` inserts the pending
request into the table strictly before invoking the link's `send` (in the
embedding, the `.echo` link behaviour runs the receive path synchronously
inside `send`, on the state that already contains the registration).
Consequently, for a link that delivers the response synchronously inside
`send`, the receive path finds the matching table entry: the caller's
future is fulfilled with the echoed response (never silently dropped) and
the entry is removed again, leaving the table as it was. -/
theorem registration_before_send (s : TransportState) (targetEid : Nat)
    (req resp : List Nat) (timeoutMs now : Nat)
    (hne : req ≠ [])
    (hresp : 2 ≤ resp.length)
    (htag : tagOf resp = tagOf req)
    (hfree : lookupTag s.pending (tagOf req) = none) :
    (sendAsync (.echo resp) targetEid req timeoutMs now s).1.pending
        = s.pending ∧
    getOutcome (sendAsync (.echo resp) targetEid req timeoutMs now s).1
        (sendAsync (.echo resp) targetEid req timeoutMs now s).2
      = some (.ok resp) := by
  have hie : ¬ (req.isEmpty = true) := by simp [hne]
  have hlen : ¬ (resp.length < 2) := Nat.not_lt.mpr hresp
  simp only [sendAsync, if_neg hie, hfree]
  simp only [processFrame, if_neg hlen, htag, lookupTag_insertTag_self]
  refine ⟨eraseTag_insertTag s.pending _ hfree, ?_⟩
  rw [getOutcome_eq_some]
  exact trySet_getElem?_of_none _ _ (List.getElem?_concat_length s.promises none)

/-- Witness for C1 at a concrete state: an empty table, request `[12, 0]`
(tag 3) echoed as response `[12, 99]`. -/
theorem registration_before_send_witness :
    (sendAsync (.echo [12, 99]) 20 [12, 0] 5000 0
        ⟨[], [], true⟩).1.pending = [] ∧
    getOutcome (sendAsync (.echo [12, 99]) 20 [12, 0] 5000 0 ⟨[], [], true⟩).1
        (sendAsync (.echo [12, 99]) 20 [12, 0] 5000 0 ⟨[], [], true⟩).2
      = some (.ok [12, 99]) :=
  registration_before_send ⟨[], [], true⟩ 20 [12, 0] [12, 99] 5000 0
    (by decide) (by decide) (by decide) (by decide)

/-- Claim C2 (matching delivery): for an inbound frame of at least the
2-byte minimum header length, the receive loop decodes the correlation tag
as `(frame[0] >> 2) & 0x1F`, a value below 32; if a pending exchange is
registered under that tag (and, as the table invariant guarantees, its
promise is still unfulfilled and table keys are unique), the entry is
removed and the promise is fulfilled with exactly the full frame bytes, so
the awaited result equals the injected frame and the pending count drops
by one. -/
theorem matching_delivery (s : TransportState) (msg : List Nat)
    (e : PendingEntry)
    (hlen : 2 ≤ msg.length)
    (hkeys : (s.pending.map Prod.fst).Nodup)
    (hmatch : lookupTag s.pending (tagOf msg) = some e)
    (hunf : s.promises[e.pid]? = some none) :
    tagOf msg < 32 ∧
    getOutcome (processFrame s msg) e.pid = some (.ok msg) ∧
    lookupTag (processFrame s msg).pending (tagOf msg) = none ∧
    (processFrame s msg).pending.length + 1 = s.pending.length := by
  have hl : ¬ (msg.length < 2) := Nat.not_lt.mpr hlen
  simp only [processFrame, if_neg hl, hmatch]
  refine ⟨?_, ?_, ?_, ?_⟩
  · exact Nat.lt_succ_of_le Nat.and_le_right
  · rw [getOutcome_eq_some]
    exact trySet_getElem?_of_none _ _ hunf
  · exact lookupTag_eraseTag_self s.pending hkeys
  · exact length_eraseTag s.pending hmatch

/-- Witness for C2: one pending exchange under tag 3 with deadline 5000
toward endpoint 20, response frame `[12, 7, 7, 7]` (header byte 12 encodes
tag 3). -/
theorem matching_delivery_witness :
    tagOf [12, 7, 7, 7] < 32 ∧
    getOutcome (processFrame ⟨[none], [(3, ⟨0, 5000, 20⟩)], true⟩
        [12, 7, 7, 7]) 0 = some (.ok [12, 7, 7, 7]) ∧
    lookupTag (processFrame ⟨[none], [(3, ⟨0, 5000, 20⟩)], true⟩
        [12, 7, 7, 7]).pending (tagOf [12, 7, 7, 7]) = none ∧
    (processFrame ⟨[none], [(3, ⟨0, 5000, 20⟩)], true⟩
        [12, 7, 7, 7]).pending.length + 1
      = (⟨[none], [(3, ⟨0, 5000, 20⟩)], true⟩ : TransportState).pending.length :=
  matching_delivery ⟨[none], [(3, ⟨0, 5000, 20⟩)], true⟩ [12, 7, 7, 7]
    ⟨0, 5000, 20⟩ (by decide) (by decide) (by decide) (by decide)

/-- Claim C3 (exactly-once fulfillment): across any sequence of
receive-loop iterations, sweeper passes, `sendAsync` calls and `close`
calls, a result handle that has been fulfilled keeps its outcome forever —
whichever of {receive-loop match, sweeper timeout, send failure, shutdown}
fulfilled it first is the only fulfillment that takes effect.  Moreover a
second fulfillment attempt on an already-fulfilled handle (`trySet`, the
embedding of `set_value`/`set_exception` inside `try/catch(future_error)`)
is a harmless no-op: it returns the promise store unchanged, and every
step function is total, so no worker crashes. -/
theorem exactly_once_fulfillment (ops : List Op) (s : TransportState)
    (pid : Nat) (o o' : Outcome) (h : getOutcome s pid = some o) :
    getOutcome (run ops s) pid = some o ∧
    trySet s.promises pid o' = s.promises := by
  have h' := (getOutcome_eq_some s pid o).mp h
  exact ⟨(getOutcome_eq_some _ pid o).mpr (run_preserves_fulfilled ops s h'),
    trySet_of_fulfilled s.promises o' h'⟩

/-- Witness for C3: a handle already fulfilled with payload `[5]` survives
a close, a frame delivery and a sweep unchanged, and a timeout-fulfillment
attempt on it is a no-op. -/
theorem exactly_once_fulfillment_witness :
    getOutcome (run [.close, .frame [12, 0], .sweep 100]
        ⟨[some (.ok [5])], [], true⟩) 0 = some (.ok [5]) ∧
    trySet [some (.ok [5])] 0 (.err .timeout) = [some (.ok [5])] :=
  exactly_once_fulfillment [.close, .frame [12, 0], .sweep 100]
    ⟨[some (.ok [5])], [], true⟩ 0 (.ok [5]) (.err .timeout) (by decide)

/-- Claim C4 (sweep correctness): one sweeper pass at time `now`, on a
well-formed state (pending promises unfulfilled, one promise per entry),
keeps exactly the entries whose deadline has not passed (with deadline,
target and promise untouched), and removes every entry whose deadline is
earlier than `now`, fulfilling each removed entry's handle with the
timeout failure. -/
theorem sweep_correctness (s : TransportState) (now : Nat)
    (hunf : ∀ p ∈ s.pending, s.promises[p.2.pid]? = some none)
    (hinj : ∀ p ∈ s.pending, ∀ q ∈ s.pending, p.2.pid = q.2.pid → p = q) :
    (∀ p, p ∈ (sweepOnce s now).pending ↔
        p ∈ s.pending ∧ ¬ p.2.deadline < now) ∧
    (∀ p ∈ s.pending, p.2.deadline < now →
        getOutcome (sweepOnce s now) p.2.pid = some (.err .timeout)) ∧
    (∀ p ∈ s.pending, ¬ p.2.deadline < now →
        (sweepOnce s now).promises[p.2.pid]? = some none) := by
  refine ⟨fun p => mem_sweepEntries now s.pending s.promises p, ?_, ?_⟩
  · intro p hp hdl
    rw [getOutcome_eq_some]
    exact sweepEntries_sets now s.pending s.promises p.2.pid
      ⟨p, hp, hdl, rfl⟩ (Or.inl (hunf p hp))
  · intro p hp hndl
    have hsep : ∀ q ∈ s.pending, q.2.deadline < now → q.2.pid ≠ p.2.pid := by
      intro q hq hqdl hqp
      exact hndl ((hinj q hq p hp hqp) ▸ hqdl)
    show (sweepEntries s.pending now s.promises).2[p.2.pid]? = some none
    rw [sweepEntries_untouched now s.pending s.promises p.2.pid hsep]
    exact hunf p hp

/-- Witness for C4: two pending exchanges, tag 1 (deadline 10, promise 0)
and tag 2 (deadline 200, promise 1); a sweep at time 100 fails promise 0
with the timeout error, drops its entry, and leaves tag 2's entry and
unfulfilled promise in place. -/
theorem sweep_correctness_witness :
    getOutcome (sweepOnce ⟨[none, none],
        [(1, ⟨0, 10, 5⟩), (2, ⟨1, 200, 6⟩)], true⟩ 100) 0
      = some (.err .timeout) ∧
    (sweepOnce ⟨[none, none],
        [(1, ⟨0, 10, 5⟩), (2, ⟨1, 200, 6⟩)], true⟩ 100).promises[1]?
      = some none ∧
    ((2, ⟨1, 200, 6⟩) ∈ (sweepOnce ⟨[none, none],
        [(1, ⟨0, 10, 5⟩), (2, ⟨1, 200, 6⟩)], true⟩ 100).pending ↔
      (2, (⟨1, 200, 6⟩ : PendingEntry)) ∈
          [(1, (⟨0, 10, 5⟩ : PendingEntry)), (2, ⟨1, 200, 6⟩)] ∧
        ¬ (200 : Nat) < 100) :=
  ⟨(sweep_correctness ⟨[none, none], [(1, ⟨0, 10, 5⟩), (2, ⟨1, 200, 6⟩)],
      true⟩ 100 (by decide) (by decide)).2.1 (1, ⟨0, 10, 5⟩)
      (by decide) (by decide),
   (sweep_correctness ⟨[none, none], [(1, ⟨0, 10, 5⟩), (2, ⟨1, 200, 6⟩)],
      true⟩ 100 (by decide) (by decide)).2.2 (2, ⟨1, 200, 6⟩)
      (by decide) (by decide),
   (sweep_correctness ⟨[none, none], [(1, ⟨0, 10, 5⟩), (2, ⟨1, 200, 6⟩)],
      true⟩ 100 (by decide) (by decide)).1 (2, ⟨1, 200, 6⟩)⟩

/-- Claim C5 (shutdown draining and idempotent close): `close` empties the
pending table and, for every exchange that was pending (with its promise
still unfulfilled, as the table invariant guarantees), fulfills its handle
with the transport-closing failure, all before `close` returns; `running`
is cleared; and a second `close` is a no-op — it produces exactly the same
state, so it neither crashes nor fulfills any exchange a second time. -/
theorem shutdown_drain (s : TransportState)
    (hunf : ∀ p ∈ s.pending, s.promises[p.2.pid]? = some none) :
    (closeTransport s).pending = [] ∧
    (closeTransport s).running = false ∧
    (∀ p ∈ s.pending, getOutcome (closeTransport s) p.2.pid
        = some (.err .transportClosing)) ∧
    closeTransport (closeTransport s) = closeTransport s := by
  refine ⟨rfl, rfl, ?_, rfl⟩
  intro p hp
  rw [getOutcome_eq_some]
  exact drainAll_sets s.pending s.promises p.2.pid ⟨p, hp, rfl⟩
    (Or.inl (hunf p hp))

/-- Witness for C5: closing a transport with two pending exchanges fails
both with the transport-closing error, empties the table, and a second
close changes nothing. -/
theorem shutdown_drain_witness :
    (closeTransport ⟨[none, none],
        [(1, ⟨0, 10, 5⟩), (2, ⟨1, 200, 6⟩)], true⟩).pending = [] ∧
    (closeTransport ⟨[none, none],
        [(1, ⟨0, 10, 5⟩), (2, ⟨1, 200, 6⟩)], true⟩).running = false ∧
    getOutcome (closeTransport ⟨[none, none],
        [(1, ⟨0, 10, 5⟩), (2, ⟨1, 200, 6⟩)], true⟩) 0
      = some (.err .transportClosing) ∧
    closeTransport (closeTransport ⟨[none, none],
        [(1, ⟨0, 10, 5⟩), (2, ⟨1, 200, 6⟩)], true⟩)
      = closeTransport ⟨[none, none],
          [(1, ⟨0, 10, 5⟩), (2, ⟨1, 200, 6⟩)], true⟩ :=
  ⟨(shutdown_drain ⟨[none, none], [(1, ⟨0, 10, 5⟩), (2, ⟨1, 200, 6⟩)],
      true⟩ (by decide)).1,
   (shutdown_drain ⟨[none, none], [(1, ⟨0, 10, 5⟩), (2, ⟨1, 200, 6⟩)],
      true⟩ (by decide)).2.1,
   (shutdown_drain ⟨[none, none], [(1, ⟨0, 10, 5⟩), (2, ⟨1, 200, 6⟩)],
      true⟩ (by decide)).2.2.1 (1, ⟨0, 10, 5⟩) (by decide),
   (shutdown_drain ⟨[none, none], [(1, ⟨0, 10, 5⟩), (2, ⟨1, 200, 6⟩)],
      true⟩ (by decide)).2.2.2⟩

theorem getOutcome_of_unfulfilled (s : TransportState) (pid : Nat)
    (h : s.promises[pid]? = some none) : getOutcome s pid = none := by
  unfold getOutcome
  rw [h]

/-- Claim C6 (send-failure handling and isolation): when the link's `send`
throws for exchange A (fresh tag, nonempty request), `sendAsync` removes
the just-inserted entry — leaving the table exactly as before the call —
and fulfills A's handle with the send-failed error rather than leaving it
to time out; any exchange B pending under a different tag is untouched,
and a response frame for B delivered afterwards still resolves B normally
with the frame bytes. -/
theorem send_failure_isolation (s : TransportState) (targetEid : Nat)
    (req : List Nat) (timeoutMs now : Nat) (tagB : Nat) (eB : PendingEntry)
    (hne : req ≠ [])
    (hfree : lookupTag s.pending (tagOf req) = none)
    (hb : lookupTag s.pending tagB = some eB) :
    getOutcome (sendAsync .fail targetEid req timeoutMs now s).1
        (sendAsync .fail targetEid req timeoutMs now s).2
      = some (.err .sendFailed) ∧
    (sendAsync .fail targetEid req timeoutMs now s).1.pending = s.pending ∧
    (∀ resp : List Nat, 2 ≤ resp.length → tagOf resp = tagB →
        s.promises[eB.pid]? = some none →
        getOutcome (processFrame
            (sendAsync .fail targetEid req timeoutMs now s).1 resp) eB.pid
          = some (.ok resp)) := by
  have hie : ¬ (req.isEmpty = true) := by simp [hne]
  simp only [sendAsync, if_neg hie, hfree, lookupTag_insertTag_self]
  have hpend : eraseTag (insertTag s.pending (tagOf req)
      ⟨s.promises.length, now + timeoutMs, targetEid⟩) (tagOf req)
      = s.pending := eraseTag_insertTag s.pending _ hfree
  refine ⟨?_, hpend, ?_⟩
  · rw [getOutcome_eq_some]
    exact trySet_getElem?_of_none _ _ (List.getElem?_concat_length s.promises none)
  · intro resp hr2 hrt hunfB
    have hlt : eB.pid < s.promises.length := by
      have := (List.getElem?_eq_some.mp hunfB).1
      simpa using this
    have hBps : (trySet (s.promises ++ [none]) s.promises.length
        (.err .sendFailed))[eB.pid]? = some none := by
      rw [trySet_getElem?_ne _ _ (Nat.ne_of_gt hlt),
        List.getElem?_append_left hlt]
      exact hunfB
    have hlr : ¬ (resp.length < 2) := Nat.not_lt.mpr hr2
    simp only [processFrame, if_neg hlr, hpend, hrt, hb]
    rw [getOutcome_eq_some]
    exact trySet_getElem?_of_none _ _ hBps

/-- Witness for C6: exchange B pending under tag 2 (promise 0); a send of
request `[12, 0]` (tag 3) whose link send throws fails the new exchange
with the send-failed error, restores the table, and a later `[8, 9]` frame
(tag 2) still resolves B with those bytes. -/
theorem send_failure_isolation_witness :
    getOutcome (sendAsync .fail 20 [12, 0] 5000 0
        ⟨[none], [(2, ⟨0, 400, 9⟩)], true⟩).1
      (sendAsync .fail 20 [12, 0] 5000 0
        ⟨[none], [(2, ⟨0, 400, 9⟩)], true⟩).2 = some (.err .sendFailed) ∧
    (sendAsync .fail 20 [12, 0] 5000 0
        ⟨[none], [(2, ⟨0, 400, 9⟩)], true⟩).1.pending = [(2, ⟨0, 400, 9⟩)] ∧
    getOutcome (processFrame (sendAsync .fail 20 [12, 0] 5000 0
        ⟨[none], [(2, ⟨0, 400, 9⟩)], true⟩).1 [8, 9]) 0
      = some (.ok [8, 9]) := by
  have h := send_failure_isolation ⟨[none], [(2, ⟨0, 400, 9⟩)], true⟩
    20 [12, 0] 5000 0 2 ⟨0, 400, 9⟩ (by decide) (by decide) (by decide)
  exact ⟨h.1, h.2.1, h.2.2 [8, 9] (by decide) (by decide) (by decide)⟩

/-- Claim C8 (insert collision policy): registering a nonempty request
whose tag already has a pending entry (with its promise still unfulfilled)
is not rejected: the new exchange takes the tag's slot in the table with a
fresh unfulfilled promise, and the previous entry is evicted with its
result handle made ready with the broken-promise failure (the C++
`std::promise` abandoned by the overwriting move-assignment stores a
`broken_promise` error, the concrete form the collision failure takes; the
collision is additionally logged, which the embedding does not model). -/
theorem insert_collision (s : TransportState) (targetEid : Nat)
    (req : List Nat) (timeoutMs now : Nat) (old : PendingEntry)
    (hne : req ≠ [])
    (hold : lookupTag s.pending (tagOf req) = some old)
    (holdunf : s.promises[old.pid]? = some none) :
    lookupTag (sendAsync .ok targetEid req timeoutMs now s).1.pending
        (tagOf req)
      = some ⟨s.promises.length, now + timeoutMs, targetEid⟩ ∧
    getOutcome (sendAsync .ok targetEid req timeoutMs now s).1 old.pid
      = some (.err .brokenPromise) ∧
    (sendAsync .ok targetEid req timeoutMs now s).2 = s.promises.length ∧
    getOutcome (sendAsync .ok targetEid req timeoutMs now s).1
        (sendAsync .ok targetEid req timeoutMs now s).2 = none := by
  have hie : ¬ (req.isEmpty = true) := by simp [hne]
  have hlt : old.pid < s.promises.length := by
    have := (List.getElem?_eq_some.mp holdunf).1
    simpa using this
  simp only [sendAsync, if_neg hie, hold]
  refine ⟨lookupTag_insertTag_self s.pending _ _, ?_, trivial, ?_⟩
  · rw [getOutcome_eq_some]
    apply trySet_getElem?_of_none
    rw [List.getElem?_append_left hlt]
    exact holdunf
  · apply getOutcome_of_unfulfilled
    show (trySet (s.promises ++ [none]) old.pid
        (.err .brokenPromise))[s.promises.length]? = some none
    rw [trySet_getElem?_ne _ _ (Nat.ne_of_lt hlt)]
    exact List.getElem?_concat_length s.promises none

/-- Witness for C8: tag 3 already pending (promise 0, unfulfilled); a new
send of `[12, 0]` (also tag 3) overwrites the slot with promise 1, makes
promise 0 ready with the broken-promise failure, and promise 1 is pending
normally. -/
theorem insert_collision_witness :
    lookupTag (sendAsync .ok 20 [12, 0] 5000 0
        ⟨[none], [(3, ⟨0, 400, 9⟩)], true⟩).1.pending (tagOf [12, 0])
      = some ⟨1, 5000, 20⟩ ∧
    getOutcome (sendAsync .ok 20 [12, 0] 5000 0
        ⟨[none], [(3, ⟨0, 400, 9⟩)], true⟩).1 0
      = some (.err .brokenPromise) ∧
    (sendAsync .ok 20 [12, 0] 5000 0
        ⟨[none], [(3, ⟨0, 400, 9⟩)], true⟩).2 = 1 ∧
    getOutcome (sendAsync .ok 20 [12, 0] 5000 0
        ⟨[none], [(3, ⟨0, 400, 9⟩)], true⟩).1
      (sendAsync .ok 20 [12, 0] 5000 0
        ⟨[none], [(3, ⟨0, 400, 9⟩)], true⟩).2 = none :=
  insert_collision ⟨[none], [(3, ⟨0, 400, 9⟩)], true⟩ 20 [12, 0] 5000 0
    ⟨0, 400, 9⟩ (by decide) (by decide) (by decide)

/-- Claim C7, counterexample: `sendAsync` does not check the transport's
running state.  On a closed transport (`running = false`) a nonempty
request `[12]` (tag 3) is registered in the pending table and handed to
the link, and its handle is not pre-failed — contradicting the claim that
a send attempted while the transport is not running is rejected up front
without registering anything. -/
theorem send_precondition_counterexample :
    (⟨[], [], false⟩ : TransportState).running = false ∧
    (sendAsync .ok 20 [12] 5000 0 ⟨[], [], false⟩).1.pending
      = [(3, ⟨0, 5000, 20⟩)] ∧
    getOutcome (sendAsync .ok 20 [12] 5000 0 ⟨[], [], false⟩).1
      (sendAsync .ok 20 [12] 5000 0 ⟨[], [], false⟩).2 = none := by
  decide

/-- Claim C7 as amended: `sendAsync` returns an immediately pre-failed
result handle (empty-request failure), without registering anything in the
pending table or touching the link, exactly when the request payload is
empty; the transport's running state is never consulted, so a nonempty
send attempted while the transport is not running is still registered
under its tag and handed to the link. -/
theorem send_precondition_amended (lb : LinkBehavior) (targetEid : Nat)
    (req : List Nat) (timeoutMs now : Nat) (s : TransportState) :
    ((sendAsync lb targetEid [] timeoutMs now s).1.pending = s.pending ∧
     (sendAsync lb targetEid [] timeoutMs now s).1.running = s.running ∧
     getOutcome (sendAsync lb targetEid [] timeoutMs now s).1
         (sendAsync lb targetEid [] timeoutMs now s).2
       = some (.err .emptyRequest)) ∧
    (req ≠ [] →
      lookupTag (sendAsync .ok targetEid req timeoutMs now s).1.pending
          (tagOf req)
        = some ⟨s.promises.length, now + timeoutMs, targetEid⟩) := by
  refine ⟨⟨rfl, rfl, ?_⟩, ?_⟩
  · rw [getOutcome_eq_some]
    show (s.promises ++ [some (.err .emptyRequest)])[s.promises.length]?
      = some (some (.err .emptyRequest))
    exact List.getElem?_concat_length s.promises _
  · intro hne
    have hie : ¬ (req.isEmpty = true) := by simp [hne]
    simp only [sendAsync, if_neg hie]
    exact lookupTag_insertTag_self s.pending _ _

/-- Witness for the amended C7: on a closed transport, an empty request is
pre-failed without registration, while the nonempty request `[12]` is
registered under tag 3 despite `running = false`. -/
theorem send_precondition_amended_witness :
    ((sendAsync .ok 20 [] 5000 0 ⟨[], [], false⟩).1.pending = [] ∧
     (sendAsync .ok 20 [] 5000 0 ⟨[], [], false⟩).1.running = false ∧
     getOutcome (sendAsync .ok 20 [] 5000 0 ⟨[], [], false⟩).1
         (sendAsync .ok 20 [] 5000 0 ⟨[], [], false⟩).2
       = some (.err .emptyRequest)) ∧
    lookupTag (sendAsync .ok 20 [12] 5000 0 ⟨[], [], false⟩).1.pending
        (tagOf [12]) = some ⟨0, 5000, 20⟩ :=
  ⟨(send_precondition_amended .ok 20 [12] 5000 0 ⟨[], [], false⟩).1,
   (send_precondition_amended .ok 20 [12] 5000 0
      ⟨[], [], false⟩).2 (by decide)⟩

/-- Claim C9 (discard isolation): a frame shorter than the 2-byte minimum
header, or whose decoded tag has no pending exchange, is discarded by the
receive loop with the transport state left completely unchanged — the
table is untouched, no promise is fulfilled or failed (no error surfaces
to any caller), and every pending exchange's eventual outcome under any
subsequent steps is exactly what it would have been without the frame. -/
theorem discard_isolation (s : TransportState) (msg : List Nat)
    (h : msg.length < 2 ∨ lookupTag s.pending (tagOf msg) = none) :
    processFrame s msg = s ∧
    ∀ ops : List Op, run ops (processFrame s msg) = run ops s := by
  have heq : processFrame s msg = s := by
    unfold processFrame
    by_cases hl : msg.length < 2
    · rw [if_pos hl]
    · rcases h with h | h
      · exact absurd h hl
      · rw [if_neg hl, h]
  exact ⟨heq, fun ops => by rw [heq]⟩

/-- Witness for C9: with tag 3 pending, the too-short frame `[99]` and the
unmatched tag-1 frame `[4, 4]` both leave the state (and any later sweep)
unchanged. -/
theorem discard_isolation_witness :
    (processFrame ⟨[none], [(3, ⟨0, 5000, 20⟩)], true⟩ [99]
        = ⟨[none], [(3, ⟨0, 5000, 20⟩)], true⟩ ∧
      run [.sweep 0] (processFrame ⟨[none], [(3, ⟨0, 5000, 20⟩)], true⟩ [99])
        = run [.sweep 0] ⟨[none], [(3, ⟨0, 5000, 20⟩)], true⟩) ∧
    processFrame ⟨[none], [(3, ⟨0, 5000, 20⟩)], true⟩ [4, 4]
      = ⟨[none], [(3, ⟨0, 5000, 20⟩)], true⟩ :=
  ⟨⟨(discard_isolation ⟨[none], [(3, ⟨0, 5000, 20⟩)], true⟩ [99]
        (Or.inl (by decide))).1,
    (discard_isolation ⟨[none], [(3, ⟨0, 5000, 20⟩)], true⟩ [99]
        (Or.inl (by decide))).2 [.sweep 0]⟩,
   (discard_isolation ⟨[none], [(3, ⟨0, 5000, 20⟩)], true⟩ [4, 4]
        (Or.inr (by decide))).1⟩

/-- Claim C10 (implicit): `sendAndWaitResponse` assigns the caller's
response output buffer only on success.  When the awaited exchange
resolves with a payload, it returns `true` with the payload as the
response; on every failure outcome (timeout, send failure, transport
closing, empty request, broken promise) `future.get()` throws before the
assignment, so it returns `false` and the caller's buffer keeps exactly
its previous contents. -/
theorem send_and_wait_response_assignment (lb : LinkBehavior)
    (targetEid : Nat) (req : List Nat) (timeoutMs now : Nat) (env : List Op)
    (s : TransportState) (resp0 : List Nat) (o : Outcome)
    (h : getOutcome (run env (sendAsync lb targetEid req timeoutMs now s).1)
          (sendAsync lb targetEid req timeoutMs now s).2 = some o) :
    (∀ p, o = .ok p →
      (sendAndWaitResponse lb targetEid req timeoutMs now env s resp0).2
        = (true, p)) ∧
    (∀ e, o = .err e →
      (sendAndWaitResponse lb targetEid req timeoutMs now env s resp0).2
        = (false, resp0)) := by
  constructor
  · rintro p rfl
    simp only [sendAndWaitResponse, h]
  · rintro e rfl
    simp only [sendAndWaitResponse, h]

/-- Witness for C10: an echoed exchange returns `(true, response)` with
the delivered frame, while an empty request returns `(false, resp0)` with
the caller's buffer `[7]` untouched. -/
theorem send_and_wait_response_assignment_witness :
    (sendAndWaitResponse (.echo [12, 9]) 20 [12, 0] 5000 0 []
        ⟨[], [], true⟩ [7]).2 = (true, [12, 9]) ∧
    (sendAndWaitResponse .ok 20 [] 5000 0 [] ⟨[], [], true⟩ [7]).2
      = (false, [7]) :=
  ⟨(send_and_wait_response_assignment (.echo [12, 9]) 20 [12, 0] 5000 0 []
      ⟨[], [], true⟩ [7] (.ok [12, 9]) (by decide)).1 [12, 9] rfl,
   (send_and_wait_response_assignment .ok 20 [] 5000 0 []
      ⟨[], [], true⟩ [7] (.err .emptyRequest) (by decide)).2
      .emptyRequest rfl⟩

end PldmSpec
